import Mathlib

/-!
Verification of the snake-minigame core of the eurhuf repository
(src/src/SnakeGame.tsx), as a shallow embedding in Lean 4.

Coordinates are integers (TS numbers used as integers); the grid is
GRID_SIZE x GRID_SIZE.  Randomness is modelled by passing an explicit
stream of candidate positions (the sequence of Math.random draws).
-/

set_option maxRecDepth 100000

namespace SnakeGame

/-! ### CONFIG constants (SnakeGame.tsx, CONFIG object) -/

def GRID_SIZE : Int := 15

def INITIAL_SPEED : Int := 150

def MIN_SPEED : Int := 60

def SPEED_DECREASE : Int := 5

def FOOD_SCORE : Int := 1

def LEVEL_CLEAR_SCORE : Int := 5

def FOOD_PER_LEVEL : Int := 8

def NAME_MAX_CHARS : Nat := 8

/-! ### Grid model -/

structure Position where
  x : Int
  y : Int
deriving DecidableEq, Repr

/-- Direction type from SnakeGame.tsx. -/
inductive Direction where
  | UP
  | DOWN
  | LEFT
  | RIGHT
deriving DecidableEq, Repr

/-- The 180-degree opposite of a heading (spec-side notion used to state
the invalid-turn property). -/
def Direction.opposite : Direction → Direction
  | .UP => .DOWN
  | .DOWN => .UP
  | .LEFT => .RIGHT
  | .RIGHT => .LEFT

/-- The isValidTurn check inside moveSnake (lines 574-579): a turn is
rejected exactly when it is one of the four listed 180-degree reversals. -/
def isValidTurn (currentDir nextDir : Direction) : Bool :=
  !((currentDir = .UP ∧ nextDir = .DOWN) ∨
    (currentDir = .DOWN ∧ nextDir = .UP) ∨
    (currentDir = .LEFT ∧ nextDir = .RIGHT) ∨
    (currentDir = .RIGHT ∧ nextDir = .LEFT) : Bool)

/-- Input-queue processing at the top of moveSnake (lines 569-584):
dequeue at most one direction; adopt it only if it is a valid turn. -/
def stepDirection (dir : Direction) (queue : List Direction) :
    Direction × List Direction :=
  match queue with
  | [] => (dir, [])
  | next :: rest => (if isValidTurn dir next then next else dir, rest)

/-- Unit move of the head in a heading (lines 588-593). -/
def advanceHead (dir : Direction) (head : Position) : Position :=
  match dir with
  | .UP => ⟨head.x, head.y - 1⟩
  | .DOWN => ⟨head.x, head.y + 1⟩
  | .LEFT => ⟨head.x - 1, head.y⟩
  | .RIGHT => ⟨head.x + 1, head.y⟩

/-! ### Food spawning (spawnFood, lines 380-414) -/

/-- A cell is blocked when some snake segment or some enemy occupies it
(the isBlocked closure inside spawnFood; enemy kind and phase are purely
cosmetic, so enemies are modelled by their positions). -/
def isBlocked (snake enemies : List Position) (p : Position) : Bool :=
  snake.any (fun seg => seg.x = p.x ∧ seg.y = p.y) ||
  enemies.any (fun enemy => enemy.x = p.x ∧ enemy.y = p.y)

/-- The do/while sampling loop of spawnFood: draw candidate number i from
the random stream; stop on an unblocked candidate or when the attempt
budget runs out, keeping the last draw either way.  Called with fuel 299
so that at most 300 candidates are drawn (attempts < 300). -/
def spawnFoodSample (blocked : Position → Bool) (rand : Nat → Position) :
    Nat → Nat → Position
  | i, 0 => rand i
  | i, fuel + 1 =>
    if blocked (rand i) then spawnFoodSample blocked rand (i + 1) fuel
    else rand i

/-- All grid cells in the scan order of the deterministic fallback loop of
spawnFood (y outer, x inner). -/
def gridCells : List Position :=
  (List.range 15).flatMap (fun y =>
    (List.range 15).map (fun x => ⟨(x : Int), (y : Int)⟩))

/-- The deterministic full-grid fallback scan of spawnFood (lines 400-411):
first unblocked cell in row-major order, if any. -/
def firstFreeCell (blocked : Position → Bool) : Option Position :=
  gridCells.find? (fun p => !(blocked p))

/-- spawnFood (lines 380-414): sample up to 300 random cells; if the last
sample is still blocked, fall back to the deterministic scan; if even the
scan finds nothing the blocked sample is kept (newFood is left as the last
random candidate). -/
def spawnFood (snake enemies : List Position) (rand : Nat → Position) :
    Position :=
  let blocked := isBlocked snake enemies
  let cand := spawnFoodSample blocked rand 0 299
  if blocked cand then
    match firstFreeCell blocked with
    | some p => p
    | none => cand
  else cand

/-! ### The simulation step (moveSnake, lines 564-670) -/

/-- The per-tick state that moveSnake reads and writes: snake body (head
first), heading, pending-input queue, food cell, enemy cells, and the tick
interval.  Score/level counters are updated through separate setState
callbacks and are not part of the grid state. -/
structure GameStepState where
  snake : List Position
  dir : Direction
  inputQueue : List Direction
  food : Position
  enemies : List Position
  speed : Int
deriving DecidableEq, Repr

inductive MoveOutcome where
  | collisionWall
  | collisionSelf
  | collisionEnemy
  | moved (ate : Bool)
deriving DecidableEq, Repr

def MoveOutcome.isTerminal : MoveOutcome → Bool
  | .collisionWall => true
  | .collisionSelf => true
  | .collisionEnemy => true
  | .moved _ => false

/-- Speed update on food eaten (lines 661-664).  In the integer embedding
the Number.isFinite guard can never fire, so the guarded reset to
INITIAL_SPEED is dead code here; it is kept to mirror the source. -/
def updateSpeed (speed : Int) : Int :=
  let s := max (speed - SPEED_DECREASE) MIN_SPEED
  s

/-- moveSnake (lines 564-670) as a pure step: consume at most one queued
direction, move the head, run the wall / self / enemy checks in source
order (each returning immediately), otherwise prepend the head and either
grow (food eaten: speed up and respawn food from the random stream) or pop
the tail.  Particle and sound effects are cosmetic and omitted. -/
def moveSnake (st : GameStepState) (rand : Nat → Position) :
    GameStepState × MoveOutcome :=
  let dq := stepDirection st.dir st.inputQueue
  let dir := dq.1
  let head := st.snake.headD ⟨0, 0⟩
  let newHead := advanceHead dir head
  let st1 : GameStepState := { st with dir := dir, inputQueue := dq.2 }
  if newHead.x < 0 ∨ newHead.x ≥ GRID_SIZE ∨
      newHead.y < 0 ∨ newHead.y ≥ GRID_SIZE then
    (st1, .collisionWall)
  else if st.snake.dropLast.any
      (fun seg => seg.x = newHead.x ∧ seg.y = newHead.y) then
    (st1, .collisionSelf)
  else if st.enemies.any
      (fun enemy => enemy.x = newHead.x ∧ enemy.y = newHead.y) then
    (st1, .collisionEnemy)
  else
    let snake1 := newHead :: st.snake
    if newHead.x = st.food.x ∧ newHead.y = st.food.y then
      ({ st1 with
          snake := snake1
          speed := updateSpeed st.speed
          food := spawnFood snake1 st.enemies rand }, .moved true)
    else
      ({ st1 with snake := snake1.dropLast }, .moved false)

/-! ### Hall of fame (leaderboard) -/

/-- HallOfFameEntry (lines 64-70); the optional remote row id plays no
role in merging, qualification or saving, so it is omitted.  Strings are
modelled as lists of characters. -/
structure HallOfFameEntry where
  name : List Char
  score : Int
  level : Int
  ts : Int
deriving DecidableEq, Repr

/-- The sort order used by mergeHallOfFame (line 1180): the comparator
(b.score - a.score) || (b.ts - a.ts) places a before (or with) b exactly
when it is nonpositive, i.e. score descending, timestamp descending. -/
def hofBefore (a b : HallOfFameEntry) : Prop :=
  b.score < a.score ∨ (a.score = b.score ∧ b.ts ≤ a.ts)

instance : DecidableRel hofBefore := fun a b =>
  inferInstanceAs (Decidable (_ ∨ _ ∧ _))

instance : IsTotal HallOfFameEntry hofBefore where
  total a b := by
    unfold hofBefore
    omega

instance : IsTrans HallOfFameEntry hofBefore where
  trans a b c hab hbc := by
    unfold hofBefore at *
    omega

/-- mergeHallOfFame (lines 1177-1185): prepend the new entry, sort by the
comparator (a stable sort, modelled by insertion sort over hofBefore) and
keep the first 10. -/
def mergeHallOfFame (entry : HallOfFameEntry) (prev : List HallOfFameEntry) :
    List HallOfFameEntry :=
  (List.insertionSort hofBefore (entry :: prev)).take 10

/-- getHofCutoff (lines 1165-1168): null unless the list has at least 10
entries, otherwise the fold of min over all scores seeded with the head
score. -/
def getHofCutoff (hallOfFame : List HallOfFameEntry) : Option Int :=
  if hallOfFame.length < 10 then none
  else
    match hallOfFame with
    | [] => none
    | h :: _ => some (hallOfFame.foldl (fun m entry => min m entry.score) h.score)

/-- qualifiesForHof (lines 1170-1175). -/
def qualifiesForHof (hallOfFame : List HallOfFameEntry)
    (candidateScore : Int) : Bool :=
  if candidateScore ≤ 0 then false
  else if hallOfFame.length < 10 then true
  else
    match getHofCutoff hallOfFame with
    | none => false
    | some cutoff => cutoff < candidateScore

/-! ### Score saving (handleSaveScore, lines 1187-1231) -/

/-- The component state read and written by handleSaveScore.  The error
banner and sound effects are cosmetic and omitted. -/
structure SaveState where
  hasSavedScore : Bool
  hofLoading : Bool
  hallOfFame : List HallOfFameEntry
deriving DecidableEq, Repr

/-- The inputs of one save attempt: current score and level, the typed
player name (a string modelled as a character list), the clock (Date.now),
whether a remote backend is configured, and whether the remote insert
succeeds (the awaited supabase result). -/
structure SaveInput where
  score : Int
  level : Int
  playerName : List Char
  now : Int
  hasSupabaseConfig : Bool
  remoteInsertOk : Bool
deriving DecidableEq, Repr

/-- Whitespace test used by String.prototype.trim, restricted to the usual
ASCII whitespace characters. -/
def isSpaceChar (c : Char) : Bool :=
  c = ' ' ∨ c = '\t' ∨ c = '\n' ∨ c = '\r'

/-- The trim() call of handleSaveScore (line 1191) on the char-list string
model: strip whitespace from both ends. -/
def trimName (name : List Char) : List Char :=
  ((name.dropWhile isSpaceChar).reverse.dropWhile isSpaceChar).reverse

/-- handleSaveScore (lines 1187-1231).  Guards in source order: already
saved or nonpositive score; remote configured while still loading with an
empty local cache; failing qualification; empty trimmed name.  Past the
guards, both the remote-success path (lines 1212-1218) and the
remote-failure / no-remote fallback (lines 1228-1230) merge the entry into
the local list and set the saved flag, so they coincide on the modelled
state. -/
def handleSaveScore (st : SaveState) (inp : SaveInput) : SaveState :=
  if st.hasSavedScore ∨ inp.score ≤ 0 then st
  else if inp.hasSupabaseConfig ∧ st.hofLoading ∧ st.hallOfFame.length = 0 then st
  else if ¬ qualifiesForHof st.hallOfFame inp.score then st
  else
    let name := (trimName inp.playerName).take NAME_MAX_CHARS
    if name = [] then st
    else
      let entry : HallOfFameEntry :=
        { name := name, score := inp.score, level := inp.level, ts := inp.now }
      { st with
          hallOfFame := mergeHallOfFame entry st.hallOfFame
          hasSavedScore := true }

/-! ### Online fetch staleness guard (loadHallOfFameOnline, lines 243-303) -/

/-- State touched by the online leaderboard loader: the request-generation
counter (hofRequestIdRef), the mounted flag (hofIsMountedRef), and the
visible leaderboard state. -/
structure HofSyncState where
  requestId : Nat
  mounted : Bool
  hallOfFame : List HallOfFameEntry
  hofLoading : Bool
deriving DecidableEq, Repr

/-- Issuing a fetch (line 244): increment the shared counter and tag the
request with the new value. -/
def issueFetch (st : HofSyncState) : HofSyncState × Nat :=
  ({ st with requestId := st.requestId + 1 }, st.requestId + 1)

/-- The continuation after the awaited fetch (lines 269-302): drop the
response when unmounted or when the tagged generation is no longer the
latest; otherwise replace the visible leaderboard and clear the loading
flag.  Error responses also pass the same two guards first, so the guard
property is independent of the success branch modelled here. -/
def applyFetchResponse (st : HofSyncState) (requestId : Nat)
    (entries : List HallOfFameEntry) : HofSyncState :=
  if st.mounted = false then st
  else if st.requestId ≠ requestId then st
  else { st with hallOfFame := entries, hofLoading := false }

/-! ### Helper lemmas -/

theorem Position.eq_iff (a b : Position) : a = b ↔ a.x = b.x ∧ a.y = b.y := by
  cases a
  cases b
  simp

/-- The heading stored by moveSnake is the one produced by the
input-queue processing, in every branch. -/
theorem moveSnake_dir (st : GameStepState) (rand : Nat → Position) :
    (moveSnake st rand).1.dir = (stepDirection st.dir st.inputQueue).1 := by
  unfold moveSnake
  dsimp only
  split
  · rfl
  · split
    · rfl
    · split
      · rfl
      · split <;> rfl

/-! ### Claim theorems -/

/-- C3: a queued direction that is the exact reverse of the current
heading is never applied: for every state, random stream and dequeued
input, the heading after the step is the old heading when the input is the
180-degree opposite, and the input otherwise. -/
theorem moveSnake_discards_reverse_input (st : GameStepState)
    (rand : Nat → Position) (next : Direction) (rest : List Direction) :
    (moveSnake { st with inputQueue := next :: rest } rand).1.dir =
      (if next = st.dir.opposite then st.dir else next) := by
  rw [moveSnake_dir]
  show (stepDirection st.dir (next :: rest)).1 = _
  cases h : st.dir <;> cases next <;> rfl

/-- C8: on every food eaten the tick interval becomes
max(current - SPEED_DECREASE, MIN_SPEED) = max(current - 5, 60), which
never drops below the 60 ms floor; on every other outcome the interval is
unchanged.  In the integer embedding the Number.isFinite guard of lines
662-664 can never fire, so the interval stays a finite integer. -/
theorem moveSnake_speed_update (st : GameStepState) (rand : Nat → Position) :
    ((moveSnake st rand).1.speed =
      if (moveSnake st rand).2 = MoveOutcome.moved true then updateSpeed st.speed
      else st.speed) ∧
    updateSpeed st.speed = max (st.speed - 5) 60 ∧
    60 ≤ updateSpeed st.speed := by
  refine ⟨?_, ?_, ?_⟩
  · unfold moveSnake
    dsimp only
    split
    · rfl
    · split
      · rfl
      · split
        · rfl
        · split <;> simp
  · rfl
  · exact le_max_right _ _

/-- C4: a terminal outcome (wall, self or obstacle collision, checked in
that order with the first match winning) leaves the snake body, the food
position and the obstacle list unchanged: the fatal movement is not
applied to the persisted grid. -/
theorem moveSnake_terminal_preserves_grid (st : GameStepState)
    (rand : Nat → Position)
    (h : ((moveSnake st rand).2).isTerminal = true) :
    (moveSnake st rand).1.snake = st.snake ∧
    (moveSnake st rand).1.food = st.food ∧
    (moveSnake st rand).1.enemies = st.enemies := by
  unfold moveSnake at h ⊢
  dsimp only at h ⊢
  split
  · exact ⟨rfl, rfl, rfl⟩
  next hc1 =>
    split
    · exact ⟨rfl, rfl, rfl⟩
    next hc2 =>
      split
      · exact ⟨rfl, rfl, rfl⟩
      next hc3 =>
        rw [if_neg hc1, if_neg hc2, if_neg hc3] at h
        split at h <;> simp [MoveOutcome.isTerminal] at h

/-- Concrete witness state for C4: a snake at the right edge heading
RIGHT, so the step is a wall collision. -/
def wallStateC4 : GameStepState :=
  { snake := [⟨14, 7⟩, ⟨13, 7⟩, ⟨12, 7⟩], dir := .RIGHT, inputQueue := [],
    food := ⟨0, 0⟩, enemies := [], speed := 150 }

/-- Witness for C4 at a concrete wall collision. -/
theorem moveSnake_terminal_preserves_grid_witness :
    ((moveSnake wallStateC4 (fun _ => ⟨0, 0⟩)).2).isTerminal = true ∧
    ((moveSnake wallStateC4 (fun _ => ⟨0, 0⟩)).1.snake = wallStateC4.snake ∧
     (moveSnake wallStateC4 (fun _ => ⟨0, 0⟩)).1.food = wallStateC4.food ∧
     (moveSnake wallStateC4 (fun _ => ⟨0, 0⟩)).1.enemies = wallStateC4.enemies) :=
  ⟨by decide, moveSnake_terminal_preserves_grid wallStateC4 (fun _ => ⟨0, 0⟩) (by decide)⟩

/-- The fold of min over entry scores is below a bound exactly when the
seed is, or some listed entry score is. -/
theorem foldl_min_score_lt (l : List HallOfFameEntry) (a s : Int) :
    l.foldl (fun m entry => min m entry.score) a < s ↔
      a < s ∨ ∃ e ∈ l, e.score < s := by
  induction l generalizing a with
  | nil => simp
  | cons hd tl ih =>
    rw [List.foldl_cons, ih, min_lt_iff]
    simp only [List.mem_cons]
    constructor
    · rintro (( h | h) | ⟨e, he, hs⟩)
      · exact Or.inl h
      · exact Or.inr ⟨hd, Or.inl rfl, h⟩
      · exact Or.inr ⟨e, Or.inr he, hs⟩
    · rintro (h | ⟨e, (rfl | he), hs⟩)
      · exact Or.inl (Or.inl h)
      · exact Or.inl (Or.inr hs)
      · exact Or.inr ⟨e, he, hs⟩

/-- C5: merging a new entry into any current leaderboard yields at most 10
entries, sorted by score descending and, on equal scores, by timestamp
descending. -/
theorem mergeHallOfFame_length_le_and_sorted (entry : HallOfFameEntry)
    (prev : List HallOfFameEntry) :
    (mergeHallOfFame entry prev).length ≤ 10 ∧
    (mergeHallOfFame entry prev).Pairwise
      (fun a b => b.score < a.score ∨ (a.score = b.score ∧ b.ts ≤ a.ts)) := by
  constructor
  · exact List.length_take_le 10 _
  · exact List.Pairwise.sublist (List.take_sublist 10 _)
      (List.sorted_insertionSort hofBefore (entry :: prev))

/-- C6: with the leaderboard capped at 10 entries, a score qualifies
exactly when it is positive and either the list is not full or some listed
entry scores strictly below it (equivalently, it strictly exceeds the
minimum of the current top 10); in particular a score of 0 never
qualifies. -/
theorem qualifiesForHof_iff_spec (hallOfFame : List HallOfFameEntry)
    (s : Int) (hlen : hallOfFame.length ≤ 10) :
    (qualifiesForHof hallOfFame s = true ↔
      0 < s ∧ (hallOfFame.length < 10 ∨ ∃ e ∈ hallOfFame, e.score < s)) ∧
    qualifiesForHof hallOfFame 0 = false := by
  constructor
  · unfold qualifiesForHof getHofCutoff
    by_cases hs : s ≤ 0
    · rw [if_pos hs]
      have h0 : ¬ (0 < s) := by omega
      simp [h0]
    · rw [if_neg hs]
      by_cases hl : hallOfFame.length < 10
      · rw [if_pos hl]
        have h0 : 0 < s := by omega
        simp [hl, h0]
      · rw [if_neg hl, if_neg hl]
        rcases hallOfFame with _ | ⟨hd, tl⟩
        · exact absurd (by simp) hl
        · dsimp only
          rw [decide_eq_true_eq, foldl_min_score_lt]
          constructor
          · rintro (h | ⟨e, he, hs2⟩)
            · exact ⟨by omega, Or.inr ⟨hd, List.mem_cons_self hd tl, h⟩⟩
            · exact ⟨by omega, Or.inr ⟨e, he, hs2⟩⟩
          · rintro ⟨hpos, (h | ⟨e, he, hs2⟩)⟩
            · exact absurd h hl
            · exact Or.inr ⟨e, he, hs2⟩
  · simp [qualifiesForHof]

/-- Witness for C6 at a concrete empty leaderboard and score 3. -/
theorem qualifiesForHof_iff_spec_witness :
    ([] : List HallOfFameEntry).length ≤ 10 ∧
    ((qualifiesForHof [] 3 = true ↔
      (0 : Int) < 3 ∧ (([] : List HallOfFameEntry).length < 10 ∨
        ∃ e ∈ ([] : List HallOfFameEntry), e.score < 3)) ∧
     qualifiesForHof [] 0 = false) :=
  ⟨by decide, qualifiesForHof_iff_spec [] 3 (by decide)⟩

/-- Once the saved flag is set, every save attempt is a no-op (the first
guard of handleSaveScore). -/
theorem handleSaveScore_saved_noop (st : SaveState) (inp : SaveInput)
    (h : st.hasSavedScore = true) : handleSaveScore st inp = st := by
  unfold handleSaveScore
  rw [if_pos (Or.inl (by simp [h]))]

/-- C7: score submission is idempotent within one game: whenever a save
attempt changes the state at all, it sets the saved flag, and from then on
every further save attempt in the same game leaves the state (and in
particular the leaderboard) exactly as it was, so submitting the same
qualifying score twice adds exactly one entry. -/
theorem handleSaveScore_idempotent (st : SaveState) (inp : SaveInput)
    (hchanged : handleSaveScore st inp ≠ st) :
    (handleSaveScore st inp).hasSavedScore = true ∧
    ∀ inp2, handleSaveScore (handleSaveScore st inp) inp2 = handleSaveScore st inp ∧
      (handleSaveScore (handleSaveScore st inp) inp2).hallOfFame =
        (handleSaveScore st inp).hallOfFame := by
  have hflag : (handleSaveScore st inp).hasSavedScore = true := by
    unfold handleSaveScore at hchanged ⊢
    by_cases h1 : st.hasSavedScore = true ∨ inp.score ≤ 0
    · rw [if_pos h1] at hchanged
      exact absurd rfl hchanged
    rw [if_neg h1] at hchanged ⊢
    by_cases h2 : inp.hasSupabaseConfig = true ∧ st.hofLoading = true ∧
        st.hallOfFame.length = 0
    · rw [if_pos h2] at hchanged
      exact absurd rfl hchanged
    rw [if_neg h2] at hchanged ⊢
    by_cases h3 : ¬ qualifiesForHof st.hallOfFame inp.score = true
    · rw [if_pos h3] at hchanged
      exact absurd rfl hchanged
    rw [if_neg h3] at hchanged ⊢
    dsimp only at hchanged ⊢
    by_cases h4 : (trimName inp.playerName).take NAME_MAX_CHARS = []
    · rw [if_pos h4] at hchanged
      exact absurd rfl hchanged
    · rw [if_neg h4]
  refine ⟨hflag, fun inp2 => ?_⟩
  have hnoop := handleSaveScore_saved_noop (handleSaveScore st inp) inp2 hflag
  exact ⟨hnoop, by rw [hnoop]⟩

/-- Concrete fresh state and qualifying input used in the C7 witness. -/
def freshSaveC7 : SaveState :=
  { hasSavedScore := false, hofLoading := false, hallOfFame := [] }

def inputC7 : SaveInput :=
  { score := 5, level := 1, playerName := ['A', 'B', 'C'], now := 1000,
    hasSupabaseConfig := false, remoteInsertOk := true }

/-- Witness for C7 at a concrete qualifying submission. -/
theorem handleSaveScore_idempotent_witness :
    handleSaveScore freshSaveC7 inputC7 ≠ freshSaveC7 ∧
    ((handleSaveScore freshSaveC7 inputC7).hasSavedScore = true ∧
     ∀ inp2, handleSaveScore (handleSaveScore freshSaveC7 inputC7) inp2 =
        handleSaveScore freshSaveC7 inputC7 ∧
      (handleSaveScore (handleSaveScore freshSaveC7 inputC7) inp2).hallOfFame =
        (handleSaveScore freshSaveC7 inputC7).hallOfFame) :=
  ⟨by decide, handleSaveScore_idempotent freshSaveC7 inputC7 (by decide)⟩

/-- C10: while the remote backend is configured, the online leaderboard is
still loading and the local cache is empty, every save attempt returns
with the state unchanged, even for a qualifying score and a valid
non-empty name. -/
theorem handleSaveScore_refused_while_loading (st : SaveState)
    (inp : SaveInput) (hcfg : inp.hasSupabaseConfig = true)
    (hload : st.hofLoading = true) (hempty : st.hallOfFame = []) :
    handleSaveScore st inp = st := by
  unfold handleSaveScore
  split
  · rfl
  · rw [if_pos ⟨by simp [hcfg], by simp [hload], by simp [hempty]⟩]

/-- Concrete loading state and qualifying input used in the C10 witness:
the score is positive and qualifying and the name is non-empty, yet the
attempt is refused. -/
def loadingSaveC10 : SaveState :=
  { hasSavedScore := false, hofLoading := true, hallOfFame := [] }

def inputC10 : SaveInput :=
  { score := 7, level := 2, playerName := ['A', 'B'], now := 5,
    hasSupabaseConfig := true, remoteInsertOk := true }

/-- Witness for C10 at a concrete refused submission. -/
theorem handleSaveScore_refused_while_loading_witness :
    inputC10.hasSupabaseConfig = true ∧
    loadingSaveC10.hofLoading = true ∧
    loadingSaveC10.hallOfFame = [] ∧
    0 < inputC10.score ∧
    qualifiesForHof loadingSaveC10.hallOfFame inputC10.score = true ∧
    trimName inputC10.playerName ≠ [] ∧
    handleSaveScore loadingSaveC10 inputC10 = loadingSaveC10 :=
  ⟨rfl, rfl, rfl, by decide, by decide, by decide,
    handleSaveScore_refused_while_loading loadingSaveC10 inputC10 rfl rfl rfl⟩

/-- C9: the request-generation counter increases with every issued fetch,
a response tagged with any generation other than the most recently issued
one is discarded with the state unchanged, and in particular when two
fetches overlap (both issued before either response lands) the
earlier-issued response changes nothing on arrival. -/
theorem hofFetch_generation_guard (st : HofSyncState) (g : Nat)
    (entries olderEntries : List HallOfFameEntry) :
    (issueFetch st).1.requestId = st.requestId + 1 ∧
    (g ≠ st.requestId → applyFetchResponse st g entries = st) ∧
    applyFetchResponse (issueFetch (issueFetch st).1).1 (issueFetch st).2
        olderEntries = (issueFetch (issueFetch st).1).1 := by
  refine ⟨rfl, ?_, ?_⟩
  · intro hg
    unfold applyFetchResponse
    split
    · rfl
    · rw [if_pos (Ne.symm hg)]
  · unfold applyFetchResponse
    split
    · rfl
    · rw [if_pos (by simp only [issueFetch]; omega)]

/-- Witness for C9 at a concrete state and stale generation. -/
theorem hofFetch_generation_guard_witness :
    (issueFetch ⟨3, true, [], true⟩).1.requestId = 3 + 1 ∧
    ((5 : Nat) ≠ 3 → applyFetchResponse ⟨3, true, [], true⟩ 5 [] = ⟨3, true, [], true⟩) ∧
    applyFetchResponse (issueFetch (issueFetch ⟨3, true, [], true⟩).1).1
        (issueFetch ⟨3, true, [], true⟩).2 [] =
      (issueFetch (issueFetch ⟨3, true, [], true⟩).1).1 :=
  hofFetch_generation_guard ⟨3, true, [], true⟩ 5 [] []

/-- A cell is unblocked exactly when it is distinct from every snake cell
and every obstacle cell. -/
theorem isBlocked_eq_false_iff (snake enemies : List Position) (p : Position) :
    isBlocked snake enemies p = false ↔ p ∉ snake ∧ p ∉ enemies := by
  simp only [isBlocked, Bool.or_eq_false_iff, List.any_eq_false,
    decide_eq_true_eq]
  constructor
  · rintro ⟨h1, h2⟩
    exact ⟨fun hp => h1 p hp ⟨rfl, rfl⟩, fun hp => h2 p hp ⟨rfl, rfl⟩⟩
  · rintro ⟨h1, h2⟩
    constructor
    · intro q hq hqe
      exact h1 ((Position.eq_iff q p).mpr hqe ▸ hq)
    · intro q hq hqe
      exact h2 ((Position.eq_iff q p).mpr hqe ▸ hq)

/-- Snake covering every grid cell, used to refute the unconditional form
of the food-spawn claim. -/
def fullGridSnake : List Position := gridCells

/-- Counterexample to C2 as stated: when the snake occupies every cell of
the grid, spawnFood returns a cell that is a snake cell (both the 300
random attempts and the deterministic fallback scan fail, and the last
blocked random candidate is kept). -/
theorem spawnFood_full_grid_counterexample :
    spawnFood fullGridSnake [] (fun _ => ⟨0, 0⟩) ∈ fullGridSnake := by decide

/-- C2 (amended): whenever at least one grid cell is free of snake and
obstacles, spawnFood returns a position not equal to any snake cell and
not equal to any obstacle cell, for every random stream. -/
theorem spawnFood_avoids_snake_and_obstacles (snake enemies : List Position)
    (rand : Nat → Position)
    (hfree : ∃ p ∈ gridCells, isBlocked snake enemies p = false) :
    spawnFood snake enemies rand ∉ snake ∧
    spawnFood snake enemies rand ∉ enemies := by
  apply (isBlocked_eq_false_iff snake enemies _).mp
  unfold spawnFood
  dsimp only
  split
  next hblocked =>
    have hsome : ∃ q, firstFreeCell (isBlocked snake enemies) = some q := by
      unfold firstFreeCell
      obtain ⟨p, hp, hpf⟩ := hfree
      rcases ho : gridCells.find? (fun c => !(isBlocked snake enemies c)) with _ | q
      · exfalso
        have := List.find?_eq_none.mp ho p hp
        simp [hpf] at this
      · exact ⟨q, rfl⟩
    obtain ⟨q, hq⟩ := hsome
    rw [hq]
    have hfound := List.find?_some hq
    simpa using hfound
  next hnb =>
    simpa using hnb

/-- Witness for the amended C2 at a concrete configuration with free
cells. -/
theorem spawnFood_avoids_snake_and_obstacles_witness :
    (∃ p ∈ gridCells, isBlocked [⟨0, 0⟩] [⟨1, 0⟩] p = false) ∧
    (spawnFood [⟨0, 0⟩] [⟨1, 0⟩] (fun _ => ⟨2, 0⟩) ∉ ([⟨0, 0⟩] : List Position) ∧
     spawnFood [⟨0, 0⟩] [⟨1, 0⟩] (fun _ => ⟨2, 0⟩) ∉ ([⟨1, 0⟩] : List Position)) :=
  ⟨by decide,
    spawnFood_avoids_snake_and_obstacles [⟨0, 0⟩] [⟨1, 0⟩] (fun _ => ⟨2, 0⟩) (by decide)⟩

/-- A snake closed into a 2x2 loop whose head is about to step onto the
tail cell, with the food lying on that tail cell. -/
def tailLoopEating : GameStepState :=
  { snake := [⟨1, 0⟩, ⟨1, 1⟩, ⟨0, 1⟩, ⟨0, 0⟩], dir := .LEFT, inputQueue := [],
    food := ⟨0, 0⟩, enemies := [], speed := 150 }

/-- Counterexample to C1 as stated: the head moves onto the current tail
cell and the food is eaten on that tick (the outcome is moved-and-ate),
yet the outcome is not collision-self: the tail is excluded from the
self-collision check unconditionally, before the food check runs. -/
theorem moveSnake_tail_eat_counterexample :
    tailLoopEating.snake.getLast? =
      some (advanceHead
        (stepDirection tailLoopEating.dir tailLoopEating.inputQueue).1
        (tailLoopEating.snake.headD ⟨0, 0⟩)) ∧
    (moveSnake tailLoopEating (fun _ => ⟨5, 5⟩)).2 = MoveOutcome.moved true ∧
    (moveSnake tailLoopEating (fun _ => ⟨5, 5⟩)).2 ≠ MoveOutcome.collisionSelf := by
  decide

/-- C1 (amended): for every snake with pairwise-distinct cells, moving the
head onto the current tail cell is never a collision-self, whether or not
the food is eaten on that tick: the tail is excluded from the
self-collision check unconditionally. -/
theorem moveSnake_onto_tail_not_collisionSelf (st : GameStepState)
    (rand : Nat → Position) (hnd : st.snake.Nodup)
    (htail : st.snake.getLast? =
      some (advanceHead (stepDirection st.dir st.inputQueue).1
        (st.snake.headD ⟨0, 0⟩))) :
    (moveSnake st rand).2 ≠ MoveOutcome.collisionSelf := by
  have hne : st.snake ≠ [] := by
    intro h
    rw [h] at htail
    simp at htail
  have hlast : st.snake.getLast hne =
      advanceHead (stepDirection st.dir st.inputQueue).1
        (st.snake.headD ⟨0, 0⟩) := by
    have hg := List.getLast?_eq_getLast st.snake hne
    rw [hg] at htail
    exact Option.some_injective _ htail
  have hnotmem : advanceHead (stepDirection st.dir st.inputQueue).1
      (st.snake.headD ⟨0, 0⟩) ∉ st.snake.dropLast := by
    intro hmem
    have hsplit := List.dropLast_append_getLast hne
    rw [← hsplit] at hnd
    rcases List.nodup_append.mp hnd with ⟨-, -, hdisj⟩
    exact hdisj hmem (by rw [← hlast]; exact List.mem_singleton_self _)
  unfold moveSnake
  dsimp only
  split
  · simp
  next hwall =>
    split
    next hself =>
      exfalso
      obtain ⟨seg, hmem, hseg⟩ := List.any_eq_true.mp hself
      rw [decide_eq_true_eq] at hseg
      exact hnotmem ((Position.eq_iff seg _).mpr hseg ▸ hmem)
    next hself =>
      split
      · simp
      · split <;> simp

/-- The same 2x2 loop with the food elsewhere, used to witness the amended
C1. -/
def tailLoopBenign : GameStepState :=
  { snake := [⟨1, 0⟩, ⟨1, 1⟩, ⟨0, 1⟩, ⟨0, 0⟩], dir := .LEFT, inputQueue := [],
    food := ⟨5, 5⟩, enemies := [], speed := 150 }

/-- Witness for the amended C1 at a concrete head-onto-tail move. -/
theorem moveSnake_onto_tail_not_collisionSelf_witness :
    tailLoopBenign.snake.Nodup ∧
    tailLoopBenign.snake.getLast? =
      some (advanceHead
        (stepDirection tailLoopBenign.dir tailLoopBenign.inputQueue).1
        (tailLoopBenign.snake.headD ⟨0, 0⟩)) ∧
    (moveSnake tailLoopBenign (fun _ => ⟨5, 5⟩)).2 ≠ MoveOutcome.collisionSelf :=
  ⟨by decide, by decide,
    moveSnake_onto_tail_not_collisionSelf tailLoopBenign (fun _ => ⟨5, 5⟩)
      (by decide) (by decide)⟩

end SnakeGame
